import Mathlib

/-!
Verification development for the Stockfish chess puzzle generator
(`src/main.py`).  The program drives two external collaborators — the
python-chess rules library and a UCI engine process — through narrow
interfaces.  Both are shallowly embedded here as parameters: `Rules`
collects exactly the rules-library operations the program calls, and the
engine is a function producing an `EngineInfo` (or an exception, modelled
with `Except`).  Randomness (`random.random`, `random.randint`,
`random.choice`) is modelled by explicit oracle streams; the uniform
floats are idealised as rationals.  File writes are modelled as an
explicit list of (path, content) pairs applied to a functional store.
-/

/-- Interface of the external python-chess rules library, listing exactly
the operations `src/main.py` invokes on boards and moves.  `turn` is
`true` for White (matching `chess.WHITE == True`); `san` may fail
(python-chess raises on illegal moves), hence `Except`. -/
structure Rules : Type 1 where
  Pos : Type
  Move : Type
  start : Pos
  legalMoves : Pos → List Move
  push : Pos → Move → Pos
  isGameOver : Pos → Bool
  isCheckmate : Pos → Bool
  isCheck : Pos → Bool
  isCapture : Pos → Move → Bool
  toFile : Move → Nat
  toRank : Move → Nat
  turn : Pos → Bool
  san : Pos → Move → Except Unit String
  fen : Pos → String
  uci : Move → String
  svgBoard : Pos → Option Move → Bool → Nat → String

/-- Result of applying a list of moves in order to a position
(`board.push` repeatedly). -/
def applyMoves (R : Rules) (p : R.Pos) (ms : List R.Move) : R.Pos :=
  ms.foldl R.push p

/-- Every move of the list is legal in the position it is played from. -/
def LegalSeq (R : Rules) : R.Pos → List R.Move → Prop
  | _, [] => True
  | p, m :: ms => m ∈ R.legalMoves p ∧ LegalSeq R (R.push p m) ms

/-- Score of one candidate move (`main.py` lines 84-94): the uniform
random draw `r`, plus 1.0 for a capture, plus 0.5 for a central
destination (file and rank index in `[3, 4]`) during the first 10 plies. -/
def scoreMove (R : Rules) (p : R.Pos) (played : Nat) (r : ℚ) (m : R.Move) : ℚ :=
  let s := r
  let s := if R.isCapture p m then s + 1 else s
  let s :=
    if played < 10 ∧ (R.toFile m = 3 ∨ R.toFile m = 4) ∧ (R.toRank m = 3 ∨ R.toRank m = 4) then
      s + 1/2
    else s
  s

/-- The `move_scores` list: each legal move paired with its score, the
`i`-th move consuming the `i`-th random draw `fl i`. -/
def scoreList (R : Rules) (p : R.Pos) (played : Nat) (fl : Nat → ℚ) :
    Nat → List R.Move → List (ℚ × R.Move)
  | _, [] => []
  | i, m :: ms => (scoreMove R p played (fl i) m, m) :: scoreList R p played fl (i + 1) ms

/-- Insertion of a scored move into a list sorted by descending score
(stable: equal scores keep earlier elements first). -/
def insertDesc {M : Type} (x : ℚ × M) : List (ℚ × M) → List (ℚ × M)
  | [] => [x]
  | y :: ys => if x.1 ≤ y.1 then y :: insertDesc x ys else x :: y :: ys

/-- Sorting by descending score, modelling `move_scores.sort(reverse=True)`
(line 99; the Python sort keys on the score component). -/
def sortDesc {M : Type} : List (ℚ × M) → List (ℚ × M)
  | [] => []
  | x :: xs => insertDesc x (sortDesc xs)

/-- Move choice of one generator step (`main.py` lines 76-101): score all
legal moves, sort descending, slice `[:min(5, len)]`, pick the element at
the choice index (`random.choice` modelled by index `c` mod slice length).
Returns `none` when there is no legal move (the `break` at line 79). -/
def chooseMove (R : Rules) (p : R.Pos) (played : Nat) (fl : Nat → ℚ) (c : Nat) :
    Option R.Move :=
  let legal := R.legalMoves p
  if legal.isEmpty then none
  else
    let moveScores := scoreList R p played fl 0 legal
    let sorted := sortDesc moveScores
    let top := sorted.take (min 5 sorted.length)
    (top.get? (c % top.length)).map (fun x => x.2)

/-- Spec-side score, following §4.1 of the spec verbatim: a sum of the
uniform draw, a capture bonus of 1.0, and a centre bonus of 0.5 when the
ply index is below 10 and the destination lies in the central 2×2 region
(files d/e and ranks 4/5, i.e. file and rank indices 3 or 4). -/
def scoreMoveSpec (R : Rules) (p : R.Pos) (ply : Nat) (r : ℚ) (m : R.Move) : ℚ :=
  r + (if R.isCapture p m then 1 else 0) +
    (if ply < 10 ∧ (3 ≤ R.toFile m ∧ R.toFile m ≤ 4) ∧ (3 ≤ R.toRank m ∧ R.toRank m ≤ 4) then
      1/2
    else 0)

/-- Spec-side scored candidate list. -/
def scoreListSpec (R : Rules) (p : R.Pos) (ply : Nat) (fl : Nat → ℚ) :
    Nat → List R.Move → List (ℚ × R.Move)
  | _, [] => []
  | i, m :: ms => (scoreMoveSpec R p ply (fl i) m, m) :: scoreListSpec R p ply fl (i + 1) ms

/-- Spec-side selection, following §4.1: sort candidates descending by
score, keep the top 5 (or all of them when fewer legal moves exist), and
choose uniformly at random among that top slice. -/
def chooseMoveSpec (R : Rules) (p : R.Pos) (ply : Nat) (fl : Nat → ℚ) (c : Nat) :
    Option R.Move :=
  let legal := R.legalMoves p
  if legal.isEmpty then none
  else
    let sorted := sortDesc (scoreListSpec R p ply fl 0 legal)
    let top := if sorted.length ≤ 5 then sorted else sorted.take 5
    (top.get? (c % top.length)).map (fun x => x.2)

/-- Main loop of `generate_random_game` (`main.py` lines 74-104), fuel =
remaining plies; `played` is `moves_played`.  The per-step oracle `o`
yields the random draws and the `random.choice` index for each ply. -/
def genLoop (R : Rules) (o : Nat → (Nat → ℚ) × Nat) : Nat → R.Pos → Nat → R.Pos
  | 0, p, _ => p
  | fuel + 1, p, played =>
    if R.isGameOver p then p
    else
      match chooseMove R p played (o played).1 (o played).2 with
      | none => p
      | some m => genLoop R o fuel (R.push p m) (played + 1)

/-- Position Generator (`generate_random_game`, `main.py` lines 69-106):
play up to `maxMoves` semi-random plies from the standard start. -/
def generate_random_game (R : Rules) (o : Nat → (Nat → ℚ) × Nat) (maxMoves : Nat) : R.Pos :=
  genLoop R o maxMoves R.start 0

/-- Engine analysis payload as read by `analyze_for_mate`:
`score = some (some k)` models a white-point-of-view `Mate(k)` score
(`info["score"].white().is_mate()` true, `.mate() = k`), `some none` a
centipawn score, `none` a missing score key; `pv` is the principal
variation (`info.get("pv", [])`). -/
structure EngineInfo (M : Type) where
  score : Option (Option Int)
  pv : List M
deriving DecidableEq

/-- Mate Finder analysis step (`analyze_for_mate`, `main.py` lines
108-124): an engine exception (`Except.error`) is swallowed to
`(None, None)`; a white-POV mate score of magnitude `mate_in ≤ max_mate`
whose principal variation holds at least `mate_in * 2 - 1` moves yields
`(mate_in, pv[:mate_in * 2])`; everything else yields `(None, None)`,
here `none`. -/
def analyze_for_mate (R : Rules) (res : Except Unit (EngineInfo R.Move)) (maxMate : Nat) :
    Option (Nat × List R.Move) :=
  match res with
  | .error _ => none
  | .ok info =>
    match info.score with
    | some (some k) =>
      let mateIn := k.natAbs
      if mateIn ≤ maxMate then
        if mateIn * 2 - 1 ≤ info.pv.length then some (mateIn, info.pv.take (mateIn * 2))
        else none
      else none
    | _ => none

/-- One attempt of `find_puzzle_position` (`main.py` lines 128-140):
generate a random game with ply limit `randint(15, 35)` (modelled as
`15 + pO a % 21`), skip it when already game over, analyse it, and accept
only a truthy result (`if mate_in and solution`, i.e. a nonzero mate
distance and a nonempty line). -/
def attemptResult (R : Rules) (engine : R.Pos → Except Unit (EngineInfo R.Move))
    (gO : Nat → Nat → (Nat → ℚ) × Nat) (pO : Nat → Nat) (a : Nat) :
    Option (R.Pos × Nat × List R.Move) :=
  let maxMoves := 15 + pO a % 21
  let board := generate_random_game R (gO a) maxMoves
  if R.isGameOver board then none
  else
    match analyze_for_mate R (engine board) 3 with
    | some (m, sol) => if m != 0 && !sol.isEmpty then some (board, m, sol) else none
    | none => none

/-- Attempt loop of `find_puzzle_position`: try attempts `a`,
`a + 1`, … while fuel remains, returning the first accepted result. -/
def findFrom (R : Rules) (engine : R.Pos → Except Unit (EngineInfo R.Move))
    (gO : Nat → Nat → (Nat → ℚ) × Nat) (pO : Nat → Nat) :
    Nat → Nat → Option (R.Pos × Nat × List R.Move)
  | 0, _ => none
  | fuel + 1, a =>
    match attemptResult R engine gO pO a with
    | some r => some r
    | none => findFrom R engine gO pO fuel (a + 1)

/-- Mate Finder (`find_puzzle_position`, `main.py` lines 126-142): up to
`maxAttempts` attempts, `(None, None, None)` (here `none`) on
exhaustion. -/
def find_puzzle_position (R : Rules) (engine : R.Pos → Except Unit (EngineInfo R.Move))
    (gO : Nat → Nat → (Nat → ℚ) × Nat) (pO : Nat → Nat) (maxAttempts : Nat) :
    Option (R.Pos × Nat × List R.Move) :=
  findFrom R engine gO pO maxAttempts 0

/-- Principal variation carried by an engine reply, `[]` for an
exception. -/
def pvOf {M : Type} (res : Except Unit (EngineInfo M)) : List M :=
  match res with
  | .ok info => info.pv
  | .error _ => []

/-- Zero-padded ordinal, modelling the Python format `{n:03d}`. -/
def pad3 (n : Nat) : String :=
  if n < 10 then "00" ++ toString n else if n < 100 then "0" ++ toString n else toString n

/-- Per-puzzle directory name `day{puzzle_number:03d}_generated`
(`main.py` line 151). -/
def puzzleDirName (number : Nat) : String :=
  "day" ++ pad3 number ++ "_generated"

/-- Puzzle title (`get_title_text`, `main.py` lines 28-33); a zero
`mate_in` is falsy in Python and yields the "... and win" form. -/
def get_title_text (R : Rules) (board : R.Pos) (mateIn : Nat) : String :=
  let color := if R.turn board then "White" else "Black"
  if mateIn != 0 then color ++ " to move and mate in " ++ toString mateIn
  else color ++ " to move and win"

/-- SVG wrapper with a 40-unit title header
(`create_board_svg_with_title`, `main.py` lines 47-67); the board markup
itself comes from the external library via `R.svgBoard`. -/
def create_board_svg_with_title (R : Rules) (board : R.Pos) (title : String)
    (lastMove : Option R.Move) (orient : Bool) (size : Nat) : String :=
  let boardSvg := R.svgBoard board lastMove orient size
  ("<svg width=\"" ++ toString size ++ "\" height=\"" ++ toString (size + 40) ++
    "\" xmlns=\"http://www.w3.org/2000/svg\">\n  <text x=\"" ++ toString (size / 2) ++
    "\" y=\"25\" text-anchor=\"middle\" font-size=\"18\"\n        font-family=\"Arial, sans-serif\" fill=\"white\" font-weight=\"bold\">\n    " ++
    title ++ "\n  </text>\n  \n  <g transform=\"translate(0,40)\">\n    " ++ boardSvg ++
    "\n  </g>\n</svg>")

/-- Bookkeeping for one iteration of the solution-step loop: the SAN text
appended to `solution_san`, the `move_color` local, the step title, and
whether the step's SVG diagram write succeeded. -/
structure StepInfo where
  sanText : String
  color : String
  title : String
  wrote : Bool
deriving DecidableEq

/-- Path of the `i`-th step diagram. -/
def stepSvgPath (dir : String) (stepNum : Nat) : String :=
  dir ++ "/solution_step" ++ toString stepNum ++ ".svg"

/-- Path of the `i`-th step raster image. -/
def stepPngPath (dir : String) (stepNum : Nat) : String :=
  dir ++ "/solution_step" ++ toString stepNum ++ ".png"

/-- Step-rendering loop of `save_puzzle` (`main.py` lines 186-227).  The
loop body sits in a `try`: a SAN conversion failure breaks before the SAN
is appended; a failing step-SVG write (`ioOk` false) breaks after it.  A
raster failure is swallowed inside `svg_to_png` and never breaks.
Returns the `StepInfo` bookkeeping and the file writes performed. -/
def stepLoop (R : Rules) (ioOk : String → Bool) (pngRender : String → String)
    (orient : Bool) (dir : String) (exportPng hasCairo : Bool) :
    R.Pos → List R.Move → Nat → List StepInfo × List (String × String)
  | _, [], _ => ([], [])
  | p, m :: rest, i =>
    match R.san p m with
    | .error _ => ([], [])
    | .ok s =>
      let color := if R.turn p then "White" else "Black"
      let p2 := R.push p m
      let stepNum := i + 1
      let title :=
        if R.isCheckmate p2 then
          "Step " ++ toString stepNum ++ ": " ++ color ++ " plays " ++ s ++ " - Checkmate! ✓"
        else if R.isCheck p2 then
          "Step " ++ toString stepNum ++ ": " ++ color ++ " plays " ++ s ++ " +"
        else
          "Step " ++ toString stepNum ++ ": " ++ color ++ " plays " ++ s
      let content := create_board_svg_with_title R p2 title (some m) orient 400
      if ioOk (stepSvgPath dir stepNum) then
        let ws1 := [(stepSvgPath dir stepNum, content)]
        let ws2 :=
          if exportPng && hasCairo && ioOk (stepPngPath dir stepNum) then
            ws1 ++ [(stepPngPath dir stepNum, pngRender content)]
          else ws1
        let rest2 := stepLoop R ioOk pngRender orient dir exportPng hasCairo p2 rest (i + 1)
        (⟨s, color, title, true⟩ :: rest2.1, ws2 ++ rest2.2)
      else ([⟨s, color, title, false⟩], [])

/-- Number of solution-step diagrams actually rendered (step-SVG files
written) by a run of the step loop. -/
def renderedCount (steps : List StepInfo) : Nat :=
  (steps.filter (fun st => st.wrote)).length

/-- Side label used by the tweet thread section (`main.py` line 255):
purely the parity of the 0-based step index. -/
def threadLabel (i : Nat) : String :=
  if i % 2 == 0 then "White" else "Black"

/-- The `"#" in san` test of `main.py` line 256. -/
def sanHasMate (s : String) : Bool :=
  s.data.contains (Char.ofNat 35)

/-- One thread entry of the tweet file (`main.py` lines 253-264);
`i` is the 0-based step index, so the tweet number is `i + 3`. -/
def tweetThreadEntry (i : Nat) (s : String) : String :=
  ("\nTweet " ++ toString (i + 1 + 2) ++ ":\n" ++
    (if sanHasMate s then "✓ " ++ threadLabel i ++ ": " ++ s ++ " - Checkmate!\n"
     else threadLabel i ++ ": " ++ s ++ "\n") ++
    "[Attach: solution_step" ++ toString (i + 1) ++ ".png]\n\n")

/-- Thread entries for all solution moves, indexed from `i`. -/
def tweetThread : Nat → List String → String
  | _, [] => ""
  | i, s :: rest => tweetThreadEntry i s ++ tweetThread (i + 1) rest

/-- The `"=" * 60` separator line. -/
def eqLine : String :=
  String.mk (List.replicate 60 (Char.ofNat 61))

/-- Content of `tweet.txt` (`main.py` lines 233-264). -/
def tweetText (number : Nat) (title : String) (sanList : List String) : String :=
  (eqLine ++ "\n" ++ "TWEET 1: PUZZLE (Main Tweet)\n" ++ eqLine ++ "\n" ++
    "Attach: puzzle.png\n\n" ++
    "🧩 Daily Chess Puzzle #" ++ toString number ++ "\n\n" ++
    title ++ "\n" ++
    "Generated by Stockfish AI ⭐\n\n" ++
    "Can you solve it? 🤔\n\n" ++
    "#ChessPuzzle #Chess #Tactics\n\n" ++
    eqLine ++ "\n" ++ "TWEET 2: SOLUTION SUMMARY\n" ++ eqLine ++ "\n" ++
    "✅ Solution: " ++ String.intercalate (" ") sanList ++ "\n\n" ++
    "See step-by-step images below! 👇\n\n" ++
    eqLine ++ "\n" ++ "TWEETS 3+: STEP-BY-STEP THREAD\n" ++ eqLine ++ "\n" ++
    tweetThread 0 sanList)

/-- Packaging outcome (`save_puzzle`'s returned dict, lines 266-271). -/
structure SaveResult where
  success : Bool
  mate_in : Nat
  solution_moves : Nat
  folder : String
deriving DecidableEq

/-- Puzzle Packager (`save_puzzle`, `main.py` lines 144-271).  Writes are
returned as an ordered (path, content) list; the directory creation
(`mkdir(exist_ok=True)`) is modelled as a marker write that never fails.
Failures of the base-record, puzzle-image or tweet writes (outside the
step `try`) abort with `Except.error`; failures inside the step loop are
contained by `stepLoop`.  The result records `len(solution_san)` as
`solution_moves`. -/
def save_puzzle (R : Rules) (ioOk : String → Bool) (pngRender : String → String)
    (board : R.Pos) (mate_in : Nat) (solution : List R.Move) (number : Nat)
    (outputDir : String) (exportPng hasCairo : Bool) :
    List (String × String) × Except Unit SaveResult :=
  let dir := outputDir ++ "/" ++ puzzleDirName number
  let wsDir := [(dir, "<dir>")]
  let orient := R.turn board
  let title := get_title_text R board mate_in
  let dataPath := dir ++ "/puzzle_data.txt"
  let dataContent :=
    ("FEN: " ++ R.fen board ++ "\nMate in: " ++ toString mate_in ++
      "\nSolution (UCI): " ++ String.intercalate (" ") (solution.map R.uci) ++ "\n\n")
  if ioOk dataPath then
    let ws1 := wsDir ++ [(dataPath, dataContent)]
    let svgPath := dir ++ "/puzzle.svg"
    let pngPath := dir ++ "/puzzle.png"
    let svgContent := create_board_svg_with_title R board title none orient 400
    if ioOk svgPath then
      let ws2 := ws1 ++ [(svgPath, svgContent)]
      let ws3 :=
        if exportPng && hasCairo && ioOk pngPath then ws2 ++ [(pngPath, pngRender svgContent)]
        else ws2
      let stepOut := stepLoop R ioOk pngRender orient dir exportPng hasCairo board solution 0
      let solutionSan := stepOut.1.map (fun st => st.sanText)
      let tweetPath := dir ++ "/tweet.txt"
      if ioOk tweetPath then
        (ws3 ++ stepOut.2 ++ [(tweetPath, tweetText number title solutionSan)],
          .ok { success := true, mate_in := mate_in,
                solution_moves := solutionSan.length, folder := dir })
      else (ws3 ++ stepOut.2, .error ())
    else (ws1, .error ())
  else (wsDir, .error ())

/-- Application of an ordered write list to a functional file store:
later writes to the same path overwrite earlier ones. -/
def applyWrites (fs : String → Option String) (ws : List (String × String)) :
    String → Option String :=
  ws.foldl (fun f kv => fun q => if q = kv.1 then some kv.2 else f q) fs

/-- Observable events of a batch run: one per Mate Finder invocation, the
engine shutdown (`engine.quit()`, line 359), and the index-file write
(lines 375-390). -/
inductive Ev where
  | callFinder : Ev
  | quitEngine : Ev
  | writeIndex : Ev
deriving DecidableEq

/-- Outcome of one iteration body of the orchestrator loop (lines
317-356): the finder succeeds and packaging succeeds, the finder succeeds
but packaging raises (note `puzzle_count` was already incremented), the
finder finds nothing, or the finder call itself raises. -/
inductive IterOutcome (ρ : Type) where
  | foundOk : ρ → IterOutcome ρ
  | foundSaveRaised : String → IterOutcome ρ
  | notFound : IterOutcome ρ
  | findRaised : String → IterOutcome ρ

/-- Whether the iteration raised (and was caught at line 354). -/
def raisedIter {ρ : Type} : IterOutcome ρ → Bool
  | .foundSaveRaised _ => true
  | .findRaised _ => true
  | _ => false

/-- Mutable run accumulators of `main` (lines 303-315) plus the event
trace. -/
structure RunState (ρ : Type) where
  count : Nat
  attempts : Nat
  succ : List ρ
  failed : List String
  trace : List Ev

/-- One iteration of the orchestrator loop body (lines 312-356):
increment `attempts`, invoke the Mate Finder, and dispatch on the
(oracle-supplied) outcome; every exception is caught and appended to the
failure list. -/
def runIter {ρ : Type} (o : Nat → IterOutcome ρ) (s : RunState ρ) : RunState ρ :=
  let s1 : RunState ρ :=
    { s with attempts := s.attempts + 1, trace := s.trace ++ [Ev.callFinder] }
  match o s.attempts with
  | .foundOk r => { s1 with count := s1.count + 1, succ := s1.succ ++ [r] }
  | .foundSaveRaised e => { s1 with count := s1.count + 1, failed := s1.failed ++ [e] }
  | .notFound => s1
  | .findRaised e => { s1 with failed := s1.failed ++ [e] }

/-- The orchestrator's `while puzzle_count < NUM_PUZZLES and attempts <
max_total_attempts` loop (line 312), with explicit fuel. -/
def mainLoop {ρ : Type} (o : Nat → IterOutcome ρ) (target cap : Nat) :
    Nat → RunState ρ → RunState ρ
  | 0, s => s
  | fuel + 1, s =>
    if s.count < target ∧ s.attempts < cap then mainLoop o target cap fuel (runIter o s)
    else s

/-- Whole run of `main` after a successful engine start (lines 300-390):
run the loop with cap `target * 100` (line 310), then shut the engine
down once and write the run index. -/
def main_run {ρ : Type} (o : Nat → IterOutcome ρ) (target : Nat) : RunState ρ :=
  let cap := target * 100
  let s := mainLoop o target cap cap ⟨0, 0, [], [], []⟩
  { s with trace := s.trace ++ [Ev.quitEngine, Ev.writeIndex] }

/-- Tiny concrete rules instance (positions are naturals counting plies,
one legal move `0` everywhere, no terminal states) used to instantiate
the interface in witnesses. -/
@[reducible] def RulesNat : Rules where
  Pos := Nat
  Move := Nat
  start := 0
  legalMoves := fun _ => [0]
  push := fun p _ => p + 1
  isGameOver := fun _ => false
  isCheckmate := fun _ => false
  isCheck := fun _ => false
  isCapture := fun _ _ => false
  toFile := fun _ => 0
  toRank := fun _ => 0
  turn := fun p => p % 2 == 0
  san := fun _ _ => Except.ok ("Qh5")
  fen := fun p => toString p
  uci := fun m => toString m
  svgBoard := fun _ _ _ _ => "BOARD"

/-- Variant of `RulesNat` whose only checkmated position is `16` (the
position after one further move from `15`). -/
@[reducible] def RulesMate : Rules :=
  { RulesNat with isCheckmate := fun p => p == 16 }

/-- Variant of `RulesNat` where positions from `3` on are game over. -/
@[reducible] def RulesEnd : Rules :=
  { RulesNat with isGameOver := fun p => decide (3 ≤ p) }

/-- Zero randomness oracle for one generated game. -/
def oZ : Nat → (Nat → ℚ) × Nat :=
  fun _ => (fun _ => 0, 0)

/-- Zero randomness oracle across attempts. -/
def gOZ : Nat → Nat → (Nat → ℚ) × Nat :=
  fun _ => oZ

/-- Zero ply-limit oracle (`randint` draw 0, giving ply limit 15). -/
def pOZ : Nat → Nat :=
  fun _ => 0

/-- An engine reply claiming mate in one with a one-move line. -/
def engineMate1 : Nat → Except Unit (EngineInfo Nat) :=
  fun _ => Except.ok ⟨some (some 1), [0]⟩

/-- An engine that always raises. -/
def engineErr : Nat → Except Unit (EngineInfo Nat) :=
  fun _ => Except.error ()

/-- File oracle under which every write succeeds. -/
def ioAll : String → Bool :=
  fun _ => true

/-- Deterministic stand-in for the external SVG-to-PNG converter. -/
def pngId : String → String :=
  fun s => s

/-- File oracle failing exactly on the first step diagram of puzzle 1. -/
def ioNoStep1 : String → Bool :=
  fun path => !(path == stepSvgPath ("out/day001_generated") 1)

/-- Characterisation of `analyze_for_mate` (helper shared by several
results): it answers `some (m, line)` exactly for a white-POV mate score
of magnitude `m ≤ 3` whose principal variation has at least `m * 2 - 1`
moves, and `line` is the `m * 2`-ply truncation. -/
theorem analyze_spec (R : Rules) (res : Except Unit (EngineInfo R.Move)) (m : Nat)
    (line : List R.Move) :
    analyze_for_mate R res 3 = some (m, line) ↔
      ∃ info k, res = Except.ok info ∧ info.score = some (some k) ∧ m = k.natAbs ∧
        m ≤ 3 ∧ m * 2 - 1 ≤ info.pv.length ∧ line = info.pv.take (m * 2) := by
  constructor
  · intro h
    rcases res with e | info
    · simp [analyze_for_mate] at h
    · rcases hsc : info.score with _ | sc
      · simp [analyze_for_mate, hsc] at h
      · rcases sc with _ | k
        · simp [analyze_for_mate, hsc] at h
        · simp only [analyze_for_mate, hsc] at h
          split_ifs at h with h1 h2
          · simp only [Option.some.injEq, Prod.mk.injEq] at h
            obtain ⟨hm, hl⟩ := h
            subst hm
            subst hl
            exact ⟨info, k, rfl, hsc, rfl, h1, h2, rfl⟩
  · rintro ⟨info, k, rfl, hsc, rfl, h3, h4, rfl⟩
    simp [analyze_for_mate, hsc, h3, h4]

/-- Facts about one accepted attempt of the Mate Finder (helper). -/
theorem attemptResult_some_facts (R : Rules) (engine : R.Pos → Except Unit (EngineInfo R.Move))
    (gO : Nat → Nat → (Nat → ℚ) × Nat) (pO : Nat → Nat) (a : Nat) (b : R.Pos) (n : Nat)
    (sol : List R.Move) (h : attemptResult R engine gO pO a = some (b, n, sol)) :
    R.isGameOver b = false ∧ n ≠ 0 ∧ n ≤ 3 ∧
      sol = (pvOf (engine b)).take (n * 2) ∧ n * 2 - 1 ≤ (pvOf (engine b)).length := by
  simp only [attemptResult] at h
  rcases hgo : R.isGameOver (generate_random_game R (gO a) (15 + pO a % 21)) with _ | _
  · rw [hgo] at h
    simp only [Bool.false_eq_true, if_false] at h
    rcases ha : analyze_for_mate R (engine (generate_random_game R (gO a) (15 + pO a % 21))) 3
      with _ | ⟨m, sol'⟩
    · simp only [ha] at h
      exact absurd h (by simp)
    · simp only [ha] at h
      split_ifs at h with hcond
      · simp only [Option.some.injEq, Prod.mk.injEq] at h
        obtain ⟨hb, hn, hs⟩ := h
        obtain ⟨info, k, hok, hsc, hm, hle, hlen, hline⟩ := (analyze_spec R _ m sol').mp ha
        simp only [Bool.and_eq_true, bne_iff_ne, ne_eq, Bool.not_eq_true'] at hcond
        subst hb hn hs
        refine ⟨hgo, hcond.1, hle, ?_, ?_⟩
        · rw [hok]
          exact hline
        · rw [hok]
          exact hlen
  · rw [hgo] at h
    simp at h

/-- Any successful outcome of the attempt loop stems from one successful
attempt (helper). -/
theorem findFrom_some_attempt (R : Rules) (engine : R.Pos → Except Unit (EngineInfo R.Move))
    (gO : Nat → Nat → (Nat → ℚ) × Nat) (pO : Nat → Nat) :
    ∀ fuel a r, findFrom R engine gO pO fuel a = some r →
      ∃ j, attemptResult R engine gO pO j = some r := by
  intro fuel
  induction fuel with
  | zero => intro a r h; exact absurd h (by simp [findFrom])
  | succ fuel ih =>
    intro a r h
    unfold findFrom at h
    rcases hat : attemptResult R engine gO pO a with _ | r'
    · simp only [hat] at h
      exact ih (a + 1) r h
    · simp only [hat] at h
      exact ⟨a, hat.trans h⟩

/-- The attempt loop yields `none` when every attempt in range fails
(helper). -/
theorem findFrom_none (R : Rules) (engine : R.Pos → Except Unit (EngineInfo R.Move))
    (gO : Nat → Nat → (Nat → ℚ) × Nat) (pO : Nat → Nat) :
    ∀ fuel a, (∀ j, a ≤ j → j < a + fuel → attemptResult R engine gO pO j = none) →
      findFrom R engine gO pO fuel a = none := by
  intro fuel
  induction fuel with
  | zero => intro a _; rfl
  | succ fuel ih =>
    intro a h
    unfold findFrom
    simp only [h a (le_refl a) (by omega)]
    exact ih (a + 1) fun j h1 h2 => h j (by omega) (by omega)

/-- C2: for every position evaluation, `analyze_for_mate` returns the
mate magnitude `M ≤ 3` together with the first `2M` moves of the
principal variation exactly when the engine reports a mate score of
magnitude `M ≤ 3` and a variation of at least `2M - 1` moves; in every
other case (no/centipawn score, too-long mate, short variation, or an
exception) it returns no mate and no line. -/
theorem analyze_reports_short_mates :
    ∀ (R : Rules) (res : Except Unit (EngineInfo R.Move)) (m : Nat) (line : List R.Move),
      analyze_for_mate R res 3 = some (m, line) ↔
        ∃ info k, res = Except.ok info ∧ info.score = some (some k) ∧ m = k.natAbs ∧
          m ≤ 3 ∧ m * 2 - 1 ≤ info.pv.length ∧ line = info.pv.take (m * 2) :=
  fun R res m line => analyze_spec R res m line

/-- Witness: a concrete mate-in-2-for-Black evaluation accepted by
`analyze_for_mate` via `analyze_reports_short_mates`. -/
theorem analyze_reports_short_mates_witness :
    analyze_for_mate RulesNat (Except.ok ⟨some (some (-2)), [0, 0, 0]⟩) 3 = some (2, [0, 0, 0]) :=
  (analyze_reports_short_mates RulesNat (Except.ok ⟨some (some (-2)), [0, 0, 0]⟩) 2
      [0, 0, 0]).mpr
    ⟨⟨some (some (-2)), [0, 0, 0]⟩, -2, rfl, rfl, by decide, by decide, by decide, by decide⟩

/-- C3: every puzzle returned by the Mate Finder reports a mate distance
`n` with `1 ≤ n ≤ 3`: the cap of 3 is enforced by `analyze_for_mate` and
a zero distance is rejected by the finder's truthiness acceptance test. -/
theorem find_mate_distance_bounds :
    ∀ (R : Rules) (engine : R.Pos → Except Unit (EngineInfo R.Move))
      (gO : Nat → Nat → (Nat → ℚ) × Nat) (pO : Nat → Nat) (maxA : Nat) (b : R.Pos) (n : Nat)
      (sol : List R.Move),
      find_puzzle_position R engine gO pO maxA = some (b, n, sol) → 1 ≤ n ∧ n ≤ 3 := by
  intro R engine gO pO maxA b n sol h
  obtain ⟨j, hj⟩ := findFrom_some_attempt R engine gO pO maxA 0 _ h
  obtain ⟨_, hn0, hn3, _, _⟩ := attemptResult_some_facts R engine gO pO j b n sol hj
  exact ⟨Nat.one_le_iff_ne_zero.mpr hn0, hn3⟩

/-- Witness for `find_mate_distance_bounds` at a concrete accepting
run. -/
theorem find_mate_distance_bounds_witness :
    find_puzzle_position RulesNat engineMate1 gOZ pOZ 1 = some (15, 1, [0]) ∧ 1 ≤ 1 ∧ 1 ≤ 3 :=
  ⟨by decide, find_mate_distance_bounds RulesNat engineMate1 gOZ pOZ 1 15 1 [0] (by decide)⟩

/-- C4: the Mate Finder never raises — an evaluation exception is
swallowed by `analyze_for_mate` into a "no mate" answer, and when every
attempt in the budget fails the finder returns the ordinary non-found
result `none` (modelling `(None, None, None)`). -/
theorem find_search_never_raises :
    ∀ (R : Rules) (engine : R.Pos → Except Unit (EngineInfo R.Move))
      (gO : Nat → Nat → (Nat → ℚ) × Nat) (pO : Nat → Nat) (maxA : Nat),
      (∀ err : Unit, analyze_for_mate R (Except.error err) 3 = none) ∧
      ((∀ a, a < maxA → attemptResult R engine gO pO a = none) →
        find_puzzle_position R engine gO pO maxA = none) := by
  intro R engine gO pO maxA
  refine ⟨fun _ => rfl, fun h => ?_⟩
  exact findFrom_none R engine gO pO maxA 0 fun j _ h2 => h j (by omega)

/-- Witness for `find_search_never_raises`: an engine that always raises
produces the non-found result after a budget of 2 attempts. -/
theorem find_search_never_raises_witness :
    analyze_for_mate RulesNat (Except.error ()) 3 = none ∧
    find_puzzle_position RulesNat engineErr gOZ pOZ 2 = none :=
  ⟨(find_search_never_raises RulesNat engineErr gOZ pOZ 2).1 (),
    (find_search_never_raises RulesNat engineErr gOZ pOZ 2).2 (by decide)⟩

/-- C1 counterexample: the Mate Finder performs no checkmate
verification.  With a structurally well-formed engine reply (a mate
distance signed by side to move plus a principal variation) whose line
does not mate, `find_puzzle_position` still returns the puzzle, and no
prefix of the recorded solution reaches a checkmate-flagged position —
refuting the claim that every returned puzzle's line mates on or before
move `N`. -/
theorem find_puzzle_unverified_line :
    find_puzzle_position RulesNat engineMate1 gOZ pOZ 1 = some (15, 1, [0]) ∧
    RulesNat.isCheckmate (applyMoves RulesNat 15 (List.take 0 [0])) = false ∧
    RulesNat.isCheckmate (applyMoves RulesNat 15 (List.take 1 [0])) = false := by
  decide

/-- C1 (amended): every puzzle returned by the Mate Finder has
`1 ≤ n ≤ 3` and a solution equal to the first `2n` plies of the engine's
reported principal variation; consequently the recorded line reaches a
checkmate-flagged position within `2n` plies whenever the engine's
variation itself does (the code checks only the mate score and the line
length, so the mating property holds exactly under that truthfulness
assumption about the engine). -/
theorem find_solution_is_pv_prefix :
    ∀ (R : Rules) (engine : R.Pos → Except Unit (EngineInfo R.Move))
      (gO : Nat → Nat → (Nat → ℚ) × Nat) (pO : Nat → Nat) (maxA : Nat) (b : R.Pos) (n : Nat)
      (sol : List R.Move),
      find_puzzle_position R engine gO pO maxA = some (b, n, sol) →
        1 ≤ n ∧ n ≤ 3 ∧ sol = (pvOf (engine b)).take (n * 2) ∧
        ∀ k, k ≤ n * 2 → R.isCheckmate (applyMoves R b (List.take k (pvOf (engine b)))) = true →
          R.isCheckmate (applyMoves R b (List.take k sol)) = true := by
  intro R engine gO pO maxA b n sol h
  obtain ⟨j, hj⟩ := findFrom_some_attempt R engine gO pO maxA 0 _ h
  obtain ⟨_, hn0, hn3, hsol, _⟩ := attemptResult_some_facts R engine gO pO j b n sol hj
  refine ⟨Nat.one_le_iff_ne_zero.mpr hn0, hn3, hsol, ?_⟩
  intro k hk hmate
  rw [hsol, List.take_take, Nat.min_eq_left hk]
  exact hmate

/-- Witness for `find_solution_is_pv_prefix`: with a truthful engine
(the reported one-move line really mates in `RulesMate`), the returned
solution reaches checkmate. -/
theorem find_solution_is_pv_prefix_witness :
    find_puzzle_position RulesMate engineMate1 gOZ pOZ 1 = some (15, 1, [0]) ∧
    RulesMate.isCheckmate (applyMoves RulesMate 15 (List.take 1 [0])) = true := by
  refine ⟨by decide, ?_⟩
  have h := find_solution_is_pv_prefix RulesMate engineMate1 gOZ pOZ 1 15 1 [0] (by decide)
  exact h.2.2.2 1 (by decide) (by decide)

/-- Code-side and spec-side scores agree (helper). -/
theorem scoreMove_eq_spec (R : Rules) (p : R.Pos) (played : Nat) (r : ℚ) (m : R.Move) :
    scoreMove R p played r m = scoreMoveSpec R p played r m := by
  have e : (played < 10 ∧ (R.toFile m = 3 ∨ R.toFile m = 4) ∧
      (R.toRank m = 3 ∨ R.toRank m = 4)) =
      (played < 10 ∧ (3 ≤ R.toFile m ∧ R.toFile m ≤ 4) ∧
        (3 ≤ R.toRank m ∧ R.toRank m ≤ 4)) := by
    apply propext
    constructor
    · rintro ⟨h1, h2, h3⟩
      exact ⟨h1, by omega, by omega⟩
    · rintro ⟨h1, h2, h3⟩
      exact ⟨h1, by omega, by omega⟩
  simp only [scoreMove, scoreMoveSpec, e]
  split_ifs <;> ring

/-- Code-side and spec-side scored candidate lists agree (helper). -/
theorem scoreList_eq_spec (R : Rules) (p : R.Pos) (played : Nat) (fl : Nat → ℚ) :
    ∀ i ms, scoreList R p played fl i ms = scoreListSpec R p played fl i ms := by
  intro i ms
  induction ms generalizing i with
  | nil => rfl
  | cons m ms ih =>
    simp only [scoreList, scoreListSpec, scoreMove_eq_spec]
    exact congrArg _ (ih (i + 1))

/-- C5: at every generator step, the move chosen by the code
(`chooseMove`, modelling lines 82-101 of `main.py`) coincides with the
policy stated by the spec (`chooseMoveSpec`): score each legal move as a
uniform draw plus 1.0 for captures plus 0.5 for central destinations in
the first 10 plies, sort descending, keep the top 5 (or all if fewer),
and pick uniformly within that slice. -/
theorem choose_move_follows_policy :
    ∀ (R : Rules) (p : R.Pos) (played : Nat) (fl : Nat → ℚ) (c : Nat),
      chooseMove R p played fl c = chooseMoveSpec R p played fl c := by
  intro R p played fl c
  unfold chooseMove chooseMoveSpec
  rcases hL : R.legalMoves p with _ | ⟨m, ms⟩
  · simp
  · simp only [List.isEmpty_cons, if_false, Bool.false_eq_true]
    rw [scoreList_eq_spec]
    by_cases h5 : (sortDesc (scoreListSpec R p played fl 0 (m :: ms))).length ≤ 5
    · rw [if_pos h5, Nat.min_eq_right h5, List.take_length]
    · rw [if_neg h5, Nat.min_eq_left (by omega)]

/-- Membership through descending insertion (helper). -/
theorem mem_insertDesc {M : Type} (x y : ℚ × M) :
    ∀ l : List (ℚ × M), y ∈ insertDesc x l → y = x ∨ y ∈ l := by
  intro l
  induction l with
  | nil =>
    intro h
    simp only [insertDesc, List.mem_singleton] at h
    exact Or.inl h
  | cons z zs ih =>
    intro h
    simp only [insertDesc] at h
    split_ifs at h with hle
    · rcases List.mem_cons.mp h with h' | h'
      · exact Or.inr (h' ▸ List.mem_cons_self z zs)
      · rcases ih h' with h'' | h''
        · exact Or.inl h''
        · exact Or.inr (List.mem_cons_of_mem z h'')
    · rcases List.mem_cons.mp h with h' | h'
      · exact Or.inl h'
      · exact Or.inr h'

/-- Membership through the descending sort (helper). -/
theorem mem_sortDesc {M : Type} (y : ℚ × M) :
    ∀ l : List (ℚ × M), y ∈ sortDesc l → y ∈ l := by
  intro l
  induction l with
  | nil => intro h; exact absurd h (by simp [sortDesc])
  | cons x xs ih =>
    intro h
    rcases mem_insertDesc x y (sortDesc xs) h with h' | h'
    · exact h' ▸ List.mem_cons_self x xs
    · exact List.mem_cons_of_mem x (ih h')

/-- Moves appearing in the scored list are legal candidates (helper). -/
theorem scoreList_snd_mem (R : Rules) (p : R.Pos) (played : Nat) (fl : Nat → ℚ) :
    ∀ (ms : List R.Move) (i : Nat) (sm : ℚ × R.Move),
      sm ∈ scoreList R p played fl i ms → sm.2 ∈ ms := by
  intro ms
  induction ms with
  | nil => intro i sm h; exact absurd h (by simp [scoreList])
  | cons m ms ih =>
    intro i sm h
    rcases List.mem_cons.mp h with h' | h'
    · simp [h']
    · exact List.mem_cons_of_mem m (ih (i + 1) sm h')

/-- The generator's chosen move is always legal (helper). -/
theorem chooseMove_mem (R : Rules) (p : R.Pos) (played : Nat) (fl : Nat → ℚ) (c : Nat)
    (m : R.Move) (h : chooseMove R p played fl c = some m) : m ∈ R.legalMoves p := by
  simp only [chooseMove] at h
  split_ifs at h with hemp
  rcases Option.map_eq_some'.mp h with ⟨sm, hget, hsm⟩
  have h1 := List.get?_mem hget
  have h2 := mem_sortDesc sm _ (List.take_subset _ _ h1)
  exact hsm ▸ scoreList_snd_mem R p played fl (R.legalMoves p) 0 sm h2

/-- Positions produced by the generator loop are reached by a bounded
legal move sequence (helper). -/
theorem genLoop_reach (R : Rules) (o : Nat → (Nat → ℚ) × Nat) :
    ∀ (fuel : Nat) (p : R.Pos) (played : Nat),
      ∃ ms : List R.Move, ms.length ≤ fuel ∧ LegalSeq R p ms ∧
        applyMoves R p ms = genLoop R o fuel p played := by
  intro fuel
  induction fuel with
  | zero => intro p played; exact ⟨[], by simp, trivial, rfl⟩
  | succ fuel ih =>
    intro p played
    rcases hgo : R.isGameOver p with _ | _
    · rcases hc : chooseMove R p played (o played).1 (o played).2 with _ | m
      · exact ⟨[], by simp, trivial, by simp [genLoop, hgo, hc, applyMoves]⟩
      · obtain ⟨ms, h1, h2, h3⟩ := ih (R.push p m) (played + 1)
        refine ⟨m :: ms, by simpa using h1, ⟨chooseMove_mem R p played _ _ m hc, h2⟩, ?_⟩
        show applyMoves R (R.push p m) ms = genLoop R o (fuel + 1) p played
        simp only [genLoop, hgo, Bool.false_eq_true, if_false, hc]
        exact h3
    · exact ⟨[], by simp, trivial, by simp [genLoop, hgo, applyMoves]⟩

/-- C6: every position returned by the Position Generator is reached from
the standard starting position by a sequence of legal moves of length at
most the requested maximum, and the loop stops immediately (returning the
position as-is) on a terminal position. -/
theorem generate_stays_legal :
    ∀ (R : Rules) (o : Nat → (Nat → ℚ) × Nat) (maxMoves : Nat),
      (∃ ms : List R.Move, ms.length ≤ maxMoves ∧ LegalSeq R R.start ms ∧
        applyMoves R R.start ms = generate_random_game R o maxMoves) ∧
      ∀ (fuel : Nat) (p : R.Pos) (played : Nat), R.isGameOver p = true →
        genLoop R o fuel p played = p := by
  intro R o maxMoves
  constructor
  · exact genLoop_reach R o maxMoves R.start 0
  · intro fuel p played h
    cases fuel with
    | zero => rfl
    | succ fuel => simp [genLoop, h]

/-- Witness for `generate_stays_legal`: a terminal position is returned
as-is. -/
theorem generate_stays_legal_witness :
    RulesEnd.isGameOver 5 = true ∧ genLoop RulesEnd oZ 1 5 0 = 5 :=
  ⟨by decide, (generate_stays_legal RulesEnd oZ 1).2 1 5 0 (by decide)⟩

/-- Step-loop bookkeeping bound (helper): every produced step except
possibly the last had its diagram written, so the number of recorded SAN
steps exceeds the rendered-diagram count by at most one. -/
theorem stepLoop_count (R : Rules) (ioOk : String → Bool) (pngRender : String → String)
    (orient : Bool) (dir : String) (exportPng hasCairo : Bool) :
    ∀ (ms : List R.Move) (p : R.Pos) (i : Nat),
      renderedCount (stepLoop R ioOk pngRender orient dir exportPng hasCairo p ms i).1 ≤
        (stepLoop R ioOk pngRender orient dir exportPng hasCairo p ms i).1.length ∧
      (stepLoop R ioOk pngRender orient dir exportPng hasCairo p ms i).1.length ≤
        renderedCount (stepLoop R ioOk pngRender orient dir exportPng hasCairo p ms i).1 + 1 := by
  intro ms
  induction ms with
  | nil => intro p i; simp [stepLoop, renderedCount]
  | cons m rest ih =>
    intro p i
    cases hsan : R.san p m with
    | error e => simp [stepLoop, hsan, renderedCount]
    | ok sOk =>
      rcases hio : ioOk (stepSvgPath dir (i + 1)) with _ | _
      · simp [stepLoop, hsan, hio, renderedCount]
      · have hb := ih (R.push p m) (i + 1)
        simp only [renderedCount] at hb
        simp [stepLoop, hsan, hio, renderedCount]
        omega

/-- C7 (amended): when the base-record, puzzle-image and tweet writes
succeed, `save_puzzle` never raises whatever happens inside the
step-rendering loop: it returns a success result whose `solution_moves`
equals the number of steps whose algebraic conversion succeeded, it still
writes the social-post draft, and that step count equals the number of
diagrams actually rendered except that it may exceed it by exactly one
when a per-step file write fails after a successful SAN conversion. -/
theorem save_puzzle_partial_steps :
    ∀ (R : Rules) (ioOk : String → Bool) (pngRender : String → String) (board : R.Pos)
      (mate_in : Nat) (solution : List R.Move) (number : Nat) (outputDir : String)
      (exportPng hasCairo : Bool),
      ioOk (outputDir ++ "/" ++ puzzleDirName number ++ "/puzzle_data.txt") = true →
      ioOk (outputDir ++ "/" ++ puzzleDirName number ++ "/puzzle.svg") = true →
      ioOk (outputDir ++ "/" ++ puzzleDirName number ++ "/tweet.txt") = true →
      (save_puzzle R ioOk pngRender board mate_in solution number outputDir exportPng
          hasCairo).2 =
        Except.ok
          { success := true, mate_in := mate_in,
            solution_moves := (stepLoop R ioOk pngRender (R.turn board)
              (outputDir ++ "/" ++ puzzleDirName number) exportPng hasCairo board solution
              0).1.length,
            folder := outputDir ++ "/" ++ puzzleDirName number } ∧
      (outputDir ++ "/" ++ puzzleDirName number ++ "/tweet.txt",
          tweetText number (get_title_text R board mate_in)
            ((stepLoop R ioOk pngRender (R.turn board)
              (outputDir ++ "/" ++ puzzleDirName number) exportPng hasCairo board solution
              0).1.map (fun st => st.sanText))) ∈
        (save_puzzle R ioOk pngRender board mate_in solution number outputDir exportPng
          hasCairo).1 ∧
      renderedCount (stepLoop R ioOk pngRender (R.turn board)
          (outputDir ++ "/" ++ puzzleDirName number) exportPng hasCairo board solution 0).1 ≤
        (stepLoop R ioOk pngRender (R.turn board) (outputDir ++ "/" ++ puzzleDirName number)
          exportPng hasCairo board solution 0).1.length ∧
      (stepLoop R ioOk pngRender (R.turn board) (outputDir ++ "/" ++ puzzleDirName number)
          exportPng hasCairo board solution 0).1.length ≤
        renderedCount (stepLoop R ioOk pngRender (R.turn board)
          (outputDir ++ "/" ++ puzzleDirName number) exportPng hasCairo board solution 0).1 +
          1 := by
  intro R ioOk pngRender board mate_in solution number outputDir exportPng hasCairo h1 h2 h3
  refine ⟨?_, ?_,
    (stepLoop_count R ioOk pngRender (R.turn board) (outputDir ++ "/" ++ puzzleDirName number)
      exportPng hasCairo solution board 0).1,
    (stepLoop_count R ioOk pngRender (R.turn board) (outputDir ++ "/" ++ puzzleDirName number)
      exportPng hasCairo solution board 0).2⟩
  · simp only [save_puzzle, h1, h2, h3, if_true, List.length_map]
  · simp only [save_puzzle, h1, h2, h3, if_true]
    exact List.mem_append_right _ (List.mem_singleton_self _)

/-- Witness for `save_puzzle_partial_steps` on a concrete all-writes-
succeed run. -/
theorem save_puzzle_partial_steps_witness :
    (save_puzzle RulesNat ioAll pngId 0 1 [0] 1 ("out") false false).2 =
      Except.ok
        { success := true, mate_in := 1, solution_moves := 1,
          folder := "out/day001_generated" } := by
  have h := save_puzzle_partial_steps RulesNat ioAll pngId 0 1 [0] 1 ("out") false false
    rfl rfl rfl
  exact h.1.trans rfl

/-- C7 counterexample: when the write of the first step diagram fails
after its SAN conversion succeeded, `save_puzzle` reports
`solution_moves = 1` while zero step diagrams were actually rendered —
refuting the claim that the returned step count always equals the number
of diagrams actually rendered. -/
theorem save_puzzle_count_mismatch :
    (save_puzzle RulesNat ioNoStep1 pngId 0 1 [0] 1 ("out") false false).2 =
      Except.ok
        { success := true, mate_in := 1, solution_moves := 1,
          folder := "out/day001_generated" } ∧
    renderedCount (stepLoop RulesNat ioNoStep1 pngId true ("out/day001_generated") false false
      0 [0] 0).1 = 0 := by
  constructor
  · rfl
  · rfl

/-- Writes elsewhere do not affect a path (helper). -/
theorem applyWrites_nmem :
    ∀ (ws : List (String × String)) (fs : String → Option String) (q : String),
      (∀ kv ∈ ws, kv.1 ≠ q) → applyWrites fs ws q = fs q := by
  intro ws
  induction ws with
  | nil => intro fs q _; rfl
  | cons kv ws ih =>
    intro fs q h
    have h1 : kv.1 ≠ q := h kv (List.mem_cons_self kv ws)
    have h2 := ih (fun q' => if q' = kv.1 then some kv.2 else fs q') q
      (fun kv' hkv' => h kv' (List.mem_cons_of_mem kv hkv'))
    exact h2.trans (if_neg (Ne.symm h1))

/-- A written path's final content does not depend on the initial store
(helper). -/
theorem applyWrites_indep :
    ∀ (ws : List (String × String)) (fs fs' : String → Option String) (q : String),
      (∃ kv ∈ ws, kv.1 = q) → applyWrites fs ws q = applyWrites fs' ws q := by
  intro ws
  induction ws with
  | nil =>
    rintro fs fs' q ⟨kv, hkv, _⟩
    exact absurd hkv (List.not_mem_nil kv)
  | cons kv ws ih =>
    rintro fs fs' q ⟨kv0, hkv0, hq⟩
    by_cases hmem : ∃ kv' ∈ ws, kv'.1 = q
    · exact ih _ _ q hmem
    · push_neg at hmem
      have e1 := applyWrites_nmem ws (fun q' => if q' = kv.1 then some kv.2 else fs q') q hmem
      have e2 := applyWrites_nmem ws (fun q' => if q' = kv.1 then some kv.2 else fs' q') q hmem
      have hkvq : kv.1 = q := by
        rcases List.mem_cons.mp hkv0 with h' | h'
        · exact h' ▸ hq
        · exact absurd hq (hmem kv0 h')
      calc applyWrites fs (kv :: ws) q = if q = kv.1 then some kv.2 else fs q := e1
        _ = some kv.2 := if_pos hkvq.symm
        _ = if q = kv.1 then some kv.2 else fs' q := (if_pos hkvq.symm).symm
        _ = applyWrites fs' (kv :: ws) q := e2.symm

/-- Replaying the same write list is a no-op (helper). -/
theorem applyWrites_idem (ws : List (String × String)) (fs : String → Option String) :
    applyWrites (applyWrites fs ws) ws = applyWrites fs ws := by
  funext q
  by_cases h : ∃ kv ∈ ws, kv.1 = q
  · exact applyWrites_indep ws _ fs q h
  · push_neg at h
    exact applyWrites_nmem ws (applyWrites fs ws) q h

/-- C8: packaging is idempotent per ordinal — the output folder recorded
in a successful result is derived deterministically from the puzzle
number (`day{n:03d}_generated` under the output directory, never failing
on an existing directory since `mkdir(exist_ok=True)` is an overwrite in
the store model), and replaying `save_puzzle`'s write list over its own
output leaves the file store unchanged (no duplicate side effects
accumulate). -/
theorem save_puzzle_idempotent :
    ∀ (R : Rules) (ioOk : String → Bool) (pngRender : String → String) (board : R.Pos)
      (mate_in : Nat) (solution : List R.Move) (number : Nat) (outputDir : String)
      (exportPng hasCairo : Bool) (fs : String → Option String) (r : SaveResult),
      ((save_puzzle R ioOk pngRender board mate_in solution number outputDir exportPng
          hasCairo).2 = Except.ok r →
        r.folder = outputDir ++ "/" ++ puzzleDirName number) ∧
      applyWrites (applyWrites fs (save_puzzle R ioOk pngRender board mate_in solution number
          outputDir exportPng hasCairo).1)
        (save_puzzle R ioOk pngRender board mate_in solution number outputDir exportPng
          hasCairo).1 =
        applyWrites fs (save_puzzle R ioOk pngRender board mate_in solution number outputDir
          exportPng hasCairo).1 := by
  intro R ioOk pngRender board mate_in solution number outputDir exportPng hasCairo fs r
  refine ⟨?_, applyWrites_idem _ fs⟩
  intro h
  simp only [save_puzzle] at h
  split_ifs at h
  all_goals simp only [Except.ok.injEq] at h
  all_goals rw [← h]

/-- Witness for `save_puzzle_idempotent` on a concrete run over the empty
store. -/
theorem save_puzzle_idempotent_witness :
    ({ success := true, mate_in := 1, solution_moves := 1,
        folder := "out/day001_generated" } : SaveResult).folder =
      "out" ++ "/" ++ puzzleDirName 1 ∧
    applyWrites (applyWrites (fun _ => none)
        (save_puzzle RulesNat ioAll pngId 0 1 [0] 1 ("out") false false).1)
      (save_puzzle RulesNat ioAll pngId 0 1 [0] 1 ("out") false false).1 =
      applyWrites (fun _ => none)
        (save_puzzle RulesNat ioAll pngId 0 1 [0] 1 ("out") false false).1 := by
  have h := save_puzzle_idempotent RulesNat ioAll pngId 0 1 [0] 1 ("out") false false
    (fun _ => none)
    { success := true, mate_in := 1, solution_moves := 1, folder := "out/day001_generated" }
  exact ⟨h.1 rfl, h.2⟩

/-- Orchestrator loop invariant (helper): the loop preserves the trace
and failure-count bookkeeping, increments attempts by at most the fuel,
respects the cap, and exits only with the target reached, the cap
reached, or the fuel exhausted. -/
theorem mainLoop_invariant {ρ : Type} (o : Nat → IterOutcome ρ) (target cap : Nat) :
    ∀ (fuel : Nat) (s : RunState ρ),
      s.count ≤ target →
      s.trace = List.replicate s.attempts Ev.callFinder →
      s.failed.length = (List.range s.attempts).countP (fun a => raisedIter (o a)) →
      (mainLoop o target cap fuel s).count ≤ target ∧
      (mainLoop o target cap fuel s).trace =
        List.replicate (mainLoop o target cap fuel s).attempts Ev.callFinder ∧
      (mainLoop o target cap fuel s).failed.length =
        (List.range (mainLoop o target cap fuel s).attempts).countP
          (fun a => raisedIter (o a)) ∧
      s.attempts ≤ (mainLoop o target cap fuel s).attempts ∧
      (mainLoop o target cap fuel s).attempts ≤ s.attempts + fuel ∧
      (s.attempts ≤ cap → (mainLoop o target cap fuel s).attempts ≤ cap) ∧
      (target ≤ (mainLoop o target cap fuel s).count ∨
        cap ≤ (mainLoop o target cap fuel s).attempts ∨
        (mainLoop o target cap fuel s).attempts = s.attempts + fuel) := by
  intro fuel
  induction fuel with
  | zero =>
    intro s h1 h2 h3
    simp only [mainLoop]
    exact ⟨h1, h2, h3, le_refl _, by omega, fun h => h, Or.inr (Or.inr (by omega))⟩
  | succ fuel ih =>
    intro s h1 h2 h3
    by_cases hcond : s.count < target ∧ s.attempts < cap
    · have hstep : mainLoop o target cap (fuel + 1) s =
          mainLoop o target cap fuel (runIter o s) := by
        simp [mainLoop, hcond]
      have hAtt : (runIter o s).attempts = s.attempts + 1 := by
        cases ho : o s.attempts <;> simp [runIter, ho]
      have hCount : (runIter o s).count ≤ s.count + 1 := by
        cases ho : o s.attempts <;> simp [runIter, ho]
      have hTrBase : s.trace ++ [Ev.callFinder] =
          List.replicate (s.attempts + 1) Ev.callFinder := by
        rw [h2, List.replicate_succ']
      have hTr : (runIter o s).trace = List.replicate (runIter o s).attempts Ev.callFinder := by
        rw [hAtt]
        cases ho : o s.attempts <;> simp only [runIter, ho] <;> exact hTrBase
      have hFail : (runIter o s).failed.length =
          (List.range (runIter o s).attempts).countP (fun a => raisedIter (o a)) := by
        rw [hAtt, List.range_succ, List.countP_append, ← h3]
        cases ho : o s.attempts <;>
          simp [runIter, ho, raisedIter, List.countP_cons, List.countP_nil]
      obtain ⟨i1, i2, i3, i4, i5, i6, i7⟩ := ih (runIter o s) (by omega) hTr hFail
      rw [hstep]
      rw [hAtt] at i4 i5 i6 i7
      refine ⟨i1, i2, i3, by omega, by omega, fun _ => i6 (by omega), ?_⟩
      rcases i7 with h | h | h
      · exact Or.inl h
      · exact Or.inr (Or.inl h)
      · exact Or.inr (Or.inr (by omega))
    · have hstep : mainLoop o target cap (fuel + 1) s = s := by
        simp only [mainLoop]
        rw [if_neg hcond]
      rw [hstep]
      refine ⟨h1, h2, h3, le_refl _, by omega, fun h => h, ?_⟩
      rcases Nat.lt_or_ge s.count target with hlt | hge
      · refine Or.inr (Or.inl ?_)
        rcases Nat.lt_or_ge s.attempts cap with hlt2 | hge2
        · exact absurd ⟨hlt, hlt2⟩ hcond
        · exact hge2
      · exact Or.inl hge

/-- C9: for every run with a started engine, the orchestrator invokes the
Mate Finder once per loop iteration for at most `target * 100`
iterations, stops early only by reaching the target count, records every
raised iteration in the failure list without ending the loop, and after
the loop the engine shutdown event occurs exactly once, before the index
write. -/
theorem main_run_orchestration :
    ∀ (ρ : Type) (o : Nat → IterOutcome ρ) (target : Nat),
      (main_run o target).trace =
        List.replicate (main_run o target).attempts Ev.callFinder ++
          [Ev.quitEngine, Ev.writeIndex] ∧
      (main_run o target).attempts ≤ target * 100 ∧
      (main_run o target).count ≤ target ∧
      ((main_run o target).count = target ∨ (main_run o target).attempts = target * 100) ∧
      (main_run o target).failed.length =
        (List.range (main_run o target).attempts).countP (fun a => raisedIter (o a)) ∧
      (main_run o target).trace.count Ev.quitEngine = 1 ∧
      (main_run o target).trace.count Ev.callFinder = (main_run o target).attempts := by
  intro ρ o target
  obtain ⟨i1, i2, i3, i4, i5, i6, i7⟩ :=
    mainLoop_invariant o target (target * 100) (target * 100) ⟨0, 0, [], [], []⟩
      (by simp) (by simp) (by simp)
  have hcap : (mainLoop o target (target * 100) (target * 100)
      ⟨0, 0, [], [], []⟩).attempts ≤ target * 100 := i6 (by simp)
  simp only [main_run]
  refine ⟨by rw [i2], hcap, i1, ?_, i3, ?_, ?_⟩
  · rcases i7 with h | h | h
    · exact Or.inl (by omega)
    · exact Or.inr (by omega)
    · refine Or.inr ?_
      simp only [RunState.attempts] at h
      omega
  · rw [i2, List.count_append, List.count_replicate]
    simp
  · rw [i2, List.count_append, List.count_replicate]
    simp

/-- The step-image titles derive their side label from the board's actual
turn, which alternates from the starting side (helper). -/
theorem stepLoop_color (R : Rules) (hAlt : ∀ (p : R.Pos) (m : R.Move),
      R.turn (R.push p m) = !R.turn p)
    (ioOk : String → Bool) (pngRender : String → String) (orient : Bool) (dir : String)
    (exportPng hasCairo : Bool) :
    ∀ (ms : List R.Move) (p : R.Pos) (i j : Nat) (st : StepInfo),
      (stepLoop R ioOk pngRender orient dir exportPng hasCairo p ms i).1.get? j = some st →
      st.color =
        (if j % 2 == 0 then (if R.turn p then "White" else "Black")
         else (if R.turn p then "Black" else "White")) := by
  intro ms
  induction ms with
  | nil =>
    intro p i j st hget
    exact absurd hget (by simp [stepLoop])
  | cons m rest ih =>
    intro p i j st hget
    cases hsan : R.san p m with
    | error e => exact absurd hget (by simp [stepLoop, hsan])
    | ok sOk =>
      rcases hio : ioOk (stepSvgPath dir (i + 1)) with _ | _
      · simp only [stepLoop, hsan, hio, Bool.false_eq_true, if_false] at hget
        cases j with
        | zero =>
          simp only [List.get?] at hget
          cases hget
          simp
        | succ j => exact absurd hget (by simp)
      · simp only [stepLoop, hsan, hio, if_true] at hget
        cases j with
        | zero =>
          simp only [List.get?] at hget
          cases hget
          simp
        | succ j =>
          simp only [List.get?] at hget
          have hc := ih (R.push p m) (i + 1) j st hget
          rw [hc, hAlt p m]
          rcases Nat.mod_two_eq_zero_or_one j with h2 | h2
          · have h3 : (j + 1) % 2 = 1 := by omega
            cases hR : R.turn p <;> simp [h2, h3]
          · have h3 : (j + 1) % 2 = 0 := by omega
            cases hR : R.turn p <;> simp [h2, h3]

/-- C10: the tweet thread section labels the `i`-th solution move
(0-indexed) "White" exactly when `i` is even, independent of the board,
while the step-image title colors follow the board's actual turn — so
when Black moves first the two name opposite sides at every step. -/
theorem thread_labels_opposite :
    ∀ (R : Rules), (∀ (p : R.Pos) (m : R.Move), R.turn (R.push p m) = !R.turn p) →
    ∀ (board : R.Pos), R.turn board = false →
    ∀ (ioOk : String → Bool) (pngRender : String → String) (dir : String)
      (exportPng hasCairo : Bool) (solution : List R.Move) (i : Nat) (st : StepInfo),
      (stepLoop R ioOk pngRender (R.turn board) dir exportPng hasCairo board solution
        0).1.get? i = some st →
      threadLabel i = (if i % 2 == 0 then "White" else "Black") ∧ st.color ≠ threadLabel i := by
  intro R hAlt board hb ioOk pngRender dir exportPng hasCairo solution i st hget
  refine ⟨rfl, ?_⟩
  have hc := stepLoop_color R hAlt ioOk pngRender (R.turn board) dir exportPng hasCairo
    solution board 0 i st hget
  rw [hb] at hc
  simp only [Bool.false_eq_true, if_false] at hc
  rw [hc, threadLabel]
  rcases Nat.mod_two_eq_zero_or_one i with h2 | h2 <;> simp [h2]

/-- Witness for `thread_labels_opposite`: with Black to move at the
start, the first step image is titled for Black while the thread entry
says White. -/
theorem thread_labels_opposite_witness :
    (stepLoop RulesNat ioAll pngId (RulesNat.turn 1) ("d") false false 1 [0] 0).1.get? 0 =
      some ⟨"Qh5", "Black", "Step 1: Black plays Qh5", true⟩ ∧
    ("Black" : String) ≠ threadLabel 0 := by
  have halt : ∀ (p : Nat) (m : Nat), RulesNat.turn (RulesNat.push p m) = !RulesNat.turn p := by
    intro p m
    show ((p + 1) % 2 == 0) = !(p % 2 == 0)
    rcases Nat.mod_two_eq_zero_or_one p with h | h
    · have h1 : (p + 1) % 2 = 1 := by omega
      rw [h, h1]
      rfl
    · have h1 : (p + 1) % 2 = 0 := by omega
      rw [h, h1]
      rfl
  refine ⟨by decide, ?_⟩
  have h := thread_labels_opposite RulesNat halt 1 (by decide) ioAll pngId ("d") false false
    [0] 0 ⟨"Qh5", "Black", "Step 1: Black plays Qh5", true⟩ (by decide)
  exact h.2
